import Mathlib

/-!
# FreeRT: shared counters, counter tasks and the LED blink program

A verification development for `Freertos/src/Freertos.c`.

* Part 1 embeds the two shared `int32_t` counters `a`, `b` (lines 27-28) and
  the critical sections of `vTask1_Incrementer` (lines 44-50) and
  `vTask2_Decrementer` (lines 71-77).
* Part 2 embeds the control flow of the two task bodies (lines 36-86) as a
  step function on program points, and a two-task system in which a scheduler
  interleaves them.
* Part 3 embeds the program that is actually linked into `main`
  (lines 111-288): register writes, `Delay`, `led_main` and `main`.

Machine integers are mathematical integers reduced explicitly: `int32_t`
arithmetic wraps modulo `2^32` into `[-2^31, 2^31)` (the behaviour of the 32-bit
add of the target), `unsigned int` arithmetic wraps modulo `2^32`.
-/

namespace FreeRT

/-! ## Part 1: the shared counters -/

/-- Reduction of an integer to the range of `int32_t`, two's complement. -/
def wrap32 (x : Int) : Int := (x + 2147483648) % 4294967296 - 2147483648

/-- The values an `int32_t` can hold. -/
def InRange32 (x : Int) : Prop := -2147483648 ≤ x ∧ x ≤ 2147483647

instance (x : Int) : Decidable (InRange32 x) := by
  unfold InRange32; infer_instance

/-- The shared variables of lines 27-28: `static volatile int32_t a, b`. -/
structure Shared where
  a : Int
  b : Int
deriving DecidableEq, Repr

/-- Both counters are initialised to zero (lines 27-28). -/
def Shared.init : Shared := { a := 0, b := 0 }

/-- Both fields hold `int32_t` values. -/
def Shared.WF (s : Shared) : Prop := InRange32 s.a ∧ InRange32 s.b

instance (s : Shared) : Decidable s.WF := by
  unfold Shared.WF; infer_instance

/-- Line 46: `a++;` -/
def a_inc (s : Shared) : Shared := { s with a := wrap32 (s.a + 1) }

/-- Line 47: `b++;` -/
def b_inc (s : Shared) : Shared := { s with b := wrap32 (s.b + 1) }

/-- Line 73: `a--;` -/
def a_dec (s : Shared) : Shared := { s with a := wrap32 (s.a - 1) }

/-- Line 74: `b--;` -/
def b_dec (s : Shared) : Shared := { s with b := wrap32 (s.b - 1) }

/-- The critical section of `vTask1_Incrementer`, lines 44-50, run to
completion: `a++; b++;`. -/
def vTask1_Incrementer.critical (s : Shared) : Shared := b_inc (a_inc s)

/-- The critical section of `vTask2_Decrementer`, lines 71-77, run to
completion: `a--; b--;`. -/
def vTask2_Decrementer.critical (s : Shared) : Shared := b_dec (a_dec s)

/-- A completed critical section, named by the task that ran it. -/
inductive Section where
  | inc
  | dec
deriving DecidableEq, Repr

/-- The effect of one completed critical section on the counters. -/
def Section.apply : Section → Shared → Shared
  | .inc, s => vTask1_Incrementer.critical s
  | .dec, s => vTask2_Decrementer.critical s

/-- The counters after a sequence of completed critical sections, first
element first. -/
def runSections (ops : List Section) (s : Shared) : Shared :=
  ops.foldl (fun st op => op.apply st) s

/-! ## Part 2: the task bodies and their interleaving -/

/-- The two task functions: `vTask1_Incrementer` (lines 36-59) and
`vTask2_Decrementer` (lines 63-86). -/
inductive TaskKind where
  | incrementer
  | decrementer
deriving DecidableEq, Repr

/-- Program points of a task body. The two bodies have the same shape; the
line numbers are those of `vTask1_Incrementer` / `vTask2_Decrementer`. -/
inductive TaskLoc where
  /-- At line 44 / 71: `taskENTER_CRITICAL();` (also the head of `for( ;; )`) -/
  | enter
  /-- At line 46 / 73: `a++;` / `a--;` -/
  | updA
  /-- At line 47 / 74: `b++;` / `b--;` -/
  | updB
  /-- At line 50 / 77: `taskEXIT_CRITICAL();` -/
  | leave
  /-- At line 53 / 80: `volatile int32_t current_a = a;` -/
  | readA
  /-- At line 54 / 81: `volatile int32_t current_b = b;` -/
  | readB
  /-- At line 57 / 84: `vTaskDelay( xDelay );` -/
  | delay
  /-- At line 59 / 86: the end of the function, after the `for( ;; )` loop -/
  | ret
deriving DecidableEq, Repr

/-- Lines 38 and 65: the argument of `pdMS_TO_TICKS`, in milliseconds. -/
def xDelay_ms : TaskKind → Nat
  | .incrementer => 10
  | .decrementer => 5

/-- The state private to one task: its program point, the number of critical
sections it has entered and not yet left, the delay it is waiting out (if it
is suspended in `vTaskDelay`), and the two locals of lines 53-54 / 80-81. -/
structure TaskState where
  loc : TaskLoc
  nesting : Nat
  waiting : Option Nat
  current_a : Option Int
  current_b : Option Int
deriving DecidableEq, Repr

/-- A task that has just been started: at the top of its loop. -/
def TaskState.start : TaskState :=
  { loc := .enter, nesting := 0, waiting := none, current_a := none, current_b := none }

/-- The task is inside its critical section: between `taskENTER_CRITICAL()`
and the completion of `taskEXIT_CRITICAL()`. -/
def TaskLoc.inCritical : TaskLoc → Bool
  | .updA => true
  | .updB => true
  | .leave => true
  | _ => false

/-- Modelled from the spec: `taskENTER_CRITICAL` comes from the FreeRTOS
kernel headers (`FreeRTOS.h`, `task.h`), which are not among the sources.
Following sections 4.1 and 5 of the spec it opens a critical section of the
calling task: the task's nesting count goes up by one. -/
def taskENTER_CRITICAL (t : TaskState) : TaskState :=
  { t with nesting := t.nesting + 1 }

/-- Modelled from the spec: `taskEXIT_CRITICAL` comes from the FreeRTOS kernel
headers, which are not among the sources. It closes a critical section of the
calling task: the task's nesting count goes down by one. -/
def taskEXIT_CRITICAL (t : TaskState) : TaskState :=
  { t with nesting := t.nesting - 1 }

/-- Modelled from the spec: `vTaskDelay` comes from the FreeRTOS kernel
headers, which are not among the sources. Following section 5 of the spec the
caller is suspended until the requested period has passed. -/
def vTaskDelay (ms : Nat) (t : TaskState) : TaskState :=
  { t with waiting := some ms }

/-- Modelled from the spec: the return of `vTaskDelay` is decided by the
FreeRTOS kernel, which is not among the sources. When the delay of a suspended
task expires, `vTaskDelay` returns and the `for( ;; )` loop starts its next
iteration (line 58 / 85 back to line 44 / 71). -/
def taskWake (t : TaskState) : TaskState :=
  if t.waiting.isSome then { t with waiting := none, loc := .enter } else t

/-- One statement of a task body (lines 41-58 / 68-85). A suspended task
executes nothing. -/
def taskStep (k : TaskKind) (t : TaskState) (sh : Shared) : TaskState × Shared :=
  if t.waiting.isSome then (t, sh) else
  match t.loc with
  | .enter => ({ taskENTER_CRITICAL t with loc := .updA }, sh)
  | .updA =>
    ({ t with loc := .updB },
      match k with
      | .incrementer => a_inc sh
      | .decrementer => a_dec sh)
  | .updB =>
    ({ t with loc := .leave },
      match k with
      | .incrementer => b_inc sh
      | .decrementer => b_dec sh)
  | .leave => ({ taskEXIT_CRITICAL t with loc := .readA }, sh)
  | .readA => ({ t with current_a := some sh.a, loc := .readB }, sh)
  | .readB => ({ t with current_b := some sh.b, loc := .delay }, sh)
  | .delay => (vTaskDelay (xDelay_ms k) t, sh)
  | .ret => (t, sh)

/-- What can happen to a single task: it executes its next statement, or its
delay expires. -/
inductive TaskEvent where
  | exec
  | wake
deriving DecidableEq, Repr

/-- One event of a task running on its own. -/
def taskApply (k : TaskKind) (c : TaskState × Shared) : TaskEvent → TaskState × Shared
  | .exec => taskStep k c.1 c.2
  | .wake => (taskWake c.1, c.2)

/-- A task running on its own through a sequence of events. -/
def taskRun (k : TaskKind) (evs : List TaskEvent) (c : TaskState × Shared) :
    TaskState × Shared :=
  evs.foldl (taskApply k) c

/-- The two tasks the commented-out part of `main` would create
(lines 263-276). -/
inductive TaskId where
  | T1
  | T2
deriving DecidableEq, Repr

/-- The task function of each task: lines 263 and 271. -/
def TaskId.kind : TaskId → TaskKind
  | .T1 => .incrementer
  | .T2 => .decrementer

/-- The task that is not `id`. -/
def TaskId.other : TaskId → TaskId
  | .T1 => .T2
  | .T2 => .T1

/-- The two tasks and the counters they share. -/
structure Sys where
  sh : Shared
  t1 : TaskState
  t2 : TaskState
deriving DecidableEq, Repr

/-- The system just after the scheduler has been started. -/
def Sys.init : Sys :=
  { sh := Shared.init, t1 := TaskState.start, t2 := TaskState.start }

/-- The private state of task `id`. -/
def Sys.task (s : Sys) : TaskId → TaskState
  | .T1 => s.t1
  | .T2 => s.t2

/-- Replace the private state of task `id`. -/
def Sys.setTask (s : Sys) (id : TaskId) (t : TaskState) : Sys :=
  match id with
  | .T1 => { s with t1 := t }
  | .T2 => { s with t2 := t }

/-- Modelled from the spec: the FreeRTOS scheduler is not among the sources.
Section 5 of the spec: the scheduler is preemptive, a task may be interrupted
at arbitrary points outside a critical section, and an open critical section
disables preemption for its whole duration. So task `id` can be given the
processor exactly when it is not suspended and the other task has no critical
section open. -/
def Sys.canRun (s : Sys) (id : TaskId) : Bool :=
  (s.task id).waiting.isNone && (s.task id.other).nesting == 0

/-- What the scheduler can do: let a task execute its next statement, or end
the delay of a task. -/
inductive SchedEvent where
  | run (id : TaskId)
  | wake (id : TaskId)
deriving DecidableEq, Repr

/-- Modelled from the spec: the FreeRTOS scheduler is not among the sources.
One scheduling event: the scheduler gives the processor to a task for one
statement, which changes nothing if that task cannot run, or the delay of a
task expires. -/
def sysStep (s : Sys) : SchedEvent → Sys
  | .run id =>
    if s.canRun id then
      let r := taskStep id.kind (s.task id) s.sh
      { s.setTask id r.1 with sh := r.2 }
    else s
  | .wake id => s.setTask id (taskWake (s.task id))

/-- The system after a schedule, first event first. -/
def sysRun (evs : List SchedEvent) (s : Sys) : Sys := evs.foldl sysStep s

/-- Some task has executed the first counter update of its critical section
and not yet the second. -/
def Sys.partialUpdate (s : Sys) : Bool :=
  decide (s.t1.loc = .updB) || decide (s.t2.loc = .updB)

/-- The invariant of a task body: the nesting count is 1 inside the critical
section and 0 outside, a suspended task is at its `vTaskDelay` call, and
control is not at the end of the function. -/
def TaskState.Inv (t : TaskState) : Prop :=
  t.nesting = (if t.loc.inCritical then 1 else 0) ∧
  (t.waiting.isSome = true → t.loc = .delay) ∧
  t.loc ≠ .ret

instance (t : TaskState) : Decidable t.Inv := by
  unfold TaskState.Inv; infer_instance

/-- The invariant of the two-task system: each task satisfies its own
invariant, the two critical sections are not open together, and the counters
differ exactly by the update a task has half done. -/
def Sys.Inv (s : Sys) : Prop :=
  s.t1.Inv ∧ s.t2.Inv ∧
  ¬ (s.t1.loc.inCritical = true ∧ s.t2.loc.inCritical = true) ∧
  (if s.t1.loc = .updB then s.sh.a = wrap32 (s.sh.b + 1)
   else if s.t2.loc = .updB then s.sh.a = wrap32 (s.sh.b - 1)
   else s.sh.a = s.sh.b)

instance (s : Sys) : Decidable s.Inv := by
  unfold Sys.Inv; infer_instance

/-! ## Part 3: the program linked into `main` -/

/-- The registers of `iodefine.h` that the program writes. -/
inductive Reg where
  | SYS_PROTCMD0_UINT32
  | SYS_PROTCMD0_PCMD0
  | SYS_MOSCE_MOSCENTRG
  | SYS_CKSC_IPCRSCANS_CTL_PCRSCANSSTP
  | SYS_CKSC_IPCETNBS_CTL_IPCETNBSSTP
  | SYS_CKSC_IXCCLKS_CTL_XCCLKSSTP
  | SYS_CKSC_IXCETNBS_CTL_IXCETNBSSTP
  | SYS_CKSC_IISMS_CTL_ISMSCSID0
  | SYS_CKSC_ILCBIS_CTL_LCBISCSID0
  | PORT_ISO_PFCE16_11
  | PORT_ISO_PFC16_11
  | PORT_ISO_PMC16_11
  | PORT_ISO_PM16_11
  | PORT_ISO_PSR16_11
  | PORT_ISO_PSR16_27
  | PORT_ISO_PNOT16_11
deriving DecidableEq, Repr

/-- The state of the machine: the shared counters, the level of output pin
P16_11 (`true` is HIGH, LED off), the register writes done so far (latest
first) and the number of reads of `SYS.MOSCS.BIT.MOSCCLKACT` done so far. -/
structure Machine where
  sh : Shared
  P16_11 : Bool
  writes : List (Reg × Nat)
  polls : Nat
deriving DecidableEq, Repr

/-- Modelled from the spec: `../generate/iodefine.h` is not among the sources;
the effect of the port registers on the pin is the one the comments of lines
171, 187, 197 and 207 describe. Writing 1 to `PSR16_11` sets P16_11 HIGH,
writing 1 to `PSR16_27` clears it LOW, writing 1 to `PNOT16_11` inverts it;
no other write changes the pin. -/
def pinAfter : Reg → Nat → Bool → Bool
  | .PORT_ISO_PSR16_11, 1, _ => true
  | .PORT_ISO_PSR16_27, 1, _ => false
  | .PORT_ISO_PNOT16_11, 1, p => !p
  | _, _, p => p

/-- A volatile write `r = v;` to a register. -/
def writeReg (r : Reg) (v : Nat) (m : Machine) : Machine :=
  { m with writes := (r, v) :: m.writes, P16_11 := pinAfter r v m.P16_11 }

/-- Lines 111-118. -/
def System_Init (m : Machine) : Machine :=
  let m := writeReg .SYS_PROTCMD0_UINT32 0x000000A5 m
  writeReg .SYS_PROTCMD0_PCMD0 1 m

/-- Lines 155-179. -/
def LED_Init (m : Machine) : Machine :=
  let m := writeReg .PORT_ISO_PFCE16_11 0 m
  let m := writeReg .PORT_ISO_PFC16_11 0 m
  let m := writeReg .PORT_ISO_PMC16_11 0 m
  let m := writeReg .PORT_ISO_PM16_11 0 m
  let m := writeReg .PORT_ISO_PSR16_11 1 m
  let m := writeReg .SYS_PROTCMD0_UINT32 0x000000A5 m
  writeReg .SYS_PROTCMD0_PCMD0 0 m

/-- Lines 185-189. -/
def LED_On (m : Machine) : Machine := writeReg .PORT_ISO_PSR16_27 1 m

/-- Lines 195-199. -/
def LED_Off (m : Machine) : Machine := writeReg .PORT_ISO_PSR16_11 1 m

/-- Lines 205-209. -/
def LED_Toggle (m : Machine) : Machine := writeReg .PORT_ISO_PNOT16_11 1 m

/-- The largest `unsigned int` of the target (32 bits). -/
def UINT_MAX : Nat := 4294967295

/-- What a run of the loop of `Delay` did: the final value of the local `i`,
the number of times the loop body and `i++` were executed, and whether some
`i++` wrapped around. -/
structure DelayRun where
  i : Nat
  iterations : Nat
  wrapped : Bool
deriving DecidableEq, Repr

/-- Line 219: `for(i = 0; i < count; i++);` from the current value of `i`.
The first argument bounds the number of evaluations of the loop condition;
`none` means the bound was reached before the loop was left. -/
def Delay.loop (count : Nat) : Nat → Nat → Option DelayRun
  | 0, _ => none
  | fuel + 1, i =>
    if i < count then
      (Delay.loop count fuel ((i + 1) % 4294967296)).map fun r =>
        { r with iterations := r.iterations + 1,
                 wrapped := r.wrapped || decide (4294967296 ≤ i + 1) }
    else some { i := i, iterations := 0, wrapped := false }

/-- Lines 216-220: `Delay(count)`. The loop writes only the local `i`, so the
machine state is handed back as it was received. -/
def Delay (count : Nat) (m : Machine) : Option Machine :=
  (Delay.loop count (count + 1) 0).map fun _ => m

/-- Line 97. -/
def BLINK_DELAY_COUNT : Nat := 1000000

/-- Program points of the program: a statement of `main`, of `led_main` or of
`Clock_Init_Comprehensive`, named by its line; a task body; or the state after
`main` has returned. Calls to the loop-free functions and to `Delay` are one
transition each. -/
inductive Loc where
  /-- In `main`, line 260: `led_main();` -/
  | L260
  /-- In `main`, line 287: `return 0;` -/
  | L287
  /-- After `main` has returned the given value -/
  | exited (code : Int)
  /-- In `led_main`, line 228: `Clock_Init_Comprehensive();` -/
  | L228
  /-- In `led_main`, line 229: `System_Init();` -/
  | L229
  /-- In `led_main`, line 231: `Delay(10000);` -/
  | L231
  /-- In `led_main`, line 233: `LED_Init();` -/
  | L233
  /-- In `led_main`, line 235: `Delay(10000);` -/
  | L235
  /-- In `led_main`, line 237: `LED_Off();` -/
  | L237
  /-- In `led_main`, line 238: `Delay(BLINK_DELAY_COUNT);` -/
  | L238
  /-- In `led_main`, line 240: `Delay(BLINK_DELAY_COUNT);` -/
  | L240
  /-- In `led_main`, line 242: `while(1)` -/
  | L242
  /-- In `led_main`, line 245: `Delay(BLINK_DELAY_COUNT);` -/
  | L245
  /-- In `led_main`, line 247: `LED_Toggle();` -/
  | L247
  /-- In `led_main`, line 250: `return 0;` -/
  | L250
  /-- In `Clock_Init_Comprehensive`, line 123: `SYS.MOSCE.BIT.MOSCENTRG = 1;` -/
  | L123
  /-- At line 126: `while(SYS.MOSCS.BIT.MOSCCLKACT == 0)` -/
  | L126
  /-- At line 128: `Delay(100);` -/
  | L128
  /-- At line 133: `SYS.CKSC_IPCRSCANS_CTL.BIT.PCRSCANSSTP = 0;` -/
  | L133
  /-- At line 134: `SYS.CKSC_IPCETNBS_CTL.BIT.IPCETNBSSTP = 0;` -/
  | L134
  /-- At line 137: `SYS.CKSC_IXCCLKS_CTL.BIT.XCCLKSSTP = 0;` -/
  | L137
  /-- At line 138: `SYS.CKSC_IXCETNBS_CTL.BIT.IXCETNBSSTP = 0;` -/
  | L138
  /-- At line 141: `SYS.CKSC_IISMS_CTL.BIT.ISMSCSID0 = 0;` -/
  | L141
  /-- At line 142: `SYS.CKSC_ILCBIS_CTL.BIT.LCBISCSID0 = 0;` -/
  | L142
  /-- At line 145: `Delay(1000);` -/
  | L145
  /-- Inside the body of a task function, with the task's private state -/
  | task (k : TaskKind) (t : TaskState)
deriving DecidableEq, Repr

/-- A configuration of the running program. -/
structure Cfg where
  loc : Loc
  m : Machine
deriving DecidableEq, Repr

/-- The configuration at program start: control at the first statement of
`main`, the counters zero (lines 27-28), nothing written yet; the level of the
pin at reset is a parameter. -/
def boot (pin0 : Bool) : Cfg :=
  { loc := .L260, m := { sh := Shared.init, P16_11 := pin0, writes := [], polls := 0 } }

/-- One transition of the program. `osc k` is the value the hardware gives
for `SYS.MOSCS.BIT.MOSCCLKACT` at its `k`-th read. The result is `none` when
there is no next configuration: `main` has returned, or a callee did not
return. -/
def step (osc : Nat → Bool) (c : Cfg) : Option Cfg :=
  match c.loc with
  -- main, lines 256-288
  | .L260 => some { c with loc := .L228 }
  | .L287 => some { c with loc := .exited 0 }
  | .exited _ => none
  -- led_main, lines 225-251
  | .L228 => some { c with loc := .L123 }
  | .L229 => some { loc := .L231, m := System_Init c.m }
  | .L231 => (Delay 10000 c.m).map fun m => { loc := .L233, m := m }
  | .L233 => some { loc := .L235, m := LED_Init c.m }
  | .L235 => (Delay 10000 c.m).map fun m => { loc := .L237, m := m }
  | .L237 => some { loc := .L238, m := LED_Off c.m }
  | .L238 => (Delay BLINK_DELAY_COUNT c.m).map fun m => { loc := .L240, m := m }
  | .L240 => (Delay BLINK_DELAY_COUNT c.m).map fun m => { loc := .L242, m := m }
  | .L242 => some { c with loc := .L245 }
  | .L245 => (Delay BLINK_DELAY_COUNT c.m).map fun m => { loc := .L247, m := m }
  | .L247 => some { loc := .L242, m := LED_Toggle c.m }
  | .L250 => some { c with loc := .L287 }
  -- Clock_Init_Comprehensive, lines 120-146
  | .L123 => some { loc := .L126, m := writeReg .SYS_MOSCE_MOSCENTRG 1 c.m }
  | .L126 =>
    let m := { c.m with polls := c.m.polls + 1 }
    if osc c.m.polls = false then some { loc := .L128, m := m }
    else some { loc := .L133, m := m }
  | .L128 => (Delay 100 c.m).map fun m => { loc := .L126, m := m }
  | .L133 => some { loc := .L134, m := writeReg .SYS_CKSC_IPCRSCANS_CTL_PCRSCANSSTP 0 c.m }
  | .L134 => some { loc := .L137, m := writeReg .SYS_CKSC_IPCETNBS_CTL_IPCETNBSSTP 0 c.m }
  | .L137 => some { loc := .L138, m := writeReg .SYS_CKSC_IXCCLKS_CTL_XCCLKSSTP 0 c.m }
  | .L138 => some { loc := .L141, m := writeReg .SYS_CKSC_IXCETNBS_CTL_IXCETNBSSTP 0 c.m }
  | .L141 => some { loc := .L142, m := writeReg .SYS_CKSC_IISMS_CTL_ISMSCSID0 0 c.m }
  | .L142 => some { loc := .L145, m := writeReg .SYS_CKSC_ILCBIS_CTL_LCBISCSID0 0 c.m }
  | .L145 => (Delay 1000 c.m).map fun m => { loc := .L229, m := m }
  -- vTask1_Incrementer, lines 36-59, and vTask2_Decrementer, lines 63-86
  | .task k t =>
    let r := taskStep k t c.m.sh
    some { loc := .task k r.1, m := { c.m with sh := r.2 } }

/-- The configuration after `n` transitions, if the program gets that far. -/
def run (osc : Nat → Bool) : Nat → Cfg → Option Cfg
  | 0, c => some c
  | n + 1, c => (step osc c).bind (run osc n)

/-- Control is in `led_main` or in its callee `Clock_Init_Comprehensive`, at a
statement other than the `return 0;` of line 250. -/
def Loc.inLedMain : Loc → Bool
  | .L260 => false
  | .L287 => false
  | .exited _ => false
  | .L250 => false
  | .task _ _ => false
  | _ => true

/-- Control is in the body of a task function. -/
def Loc.inTask : Loc → Bool
  | .task _ _ => true
  | _ => false

/-- Control is in the polling loop of `Clock_Init_Comprehensive`,
lines 126-129. -/
def Loc.inPollLoop : Loc → Bool
  | .L126 => true
  | .L128 => true
  | _ => false

/-- Control is in the `while(1)` blink loop of `led_main`, lines 242-248. -/
def Loc.inBlinkLoop : Loc → Bool
  | .L242 => true
  | .L245 => true
  | .L247 => true
  | _ => false

/-- An oscillator that reports itself stable at every read. -/
def oscReady : Nat → Bool := fun _ => true

/-! ## Lemmas on the counters -/

theorem wrap32_inRange (x : Int) : InRange32 (wrap32 x) := by
  unfold InRange32 wrap32; omega

theorem wrap32_of_inRange {x : Int} (h : InRange32 x) : wrap32 x = x := by
  unfold InRange32 at h; unfold wrap32; omega

theorem wrap32_add_wrap32 (x y : Int) : wrap32 (wrap32 x + y) = wrap32 (x + y) := by
  unfold wrap32; omega

theorem runSections_nil (s : Shared) : runSections [] s = s := rfl

theorem runSections_cons (op : Section) (ops : List Section) (s : Shared) :
    runSections (op :: ops) s = runSections ops (op.apply s) := rfl

theorem Section.apply_comm (x y : Section) (s : Shared) :
    x.apply (y.apply s) = y.apply (x.apply s) := by
  cases x <;> cases y <;>
    simp [Section.apply, vTask1_Incrementer.critical, vTask2_Decrementer.critical,
      a_inc, b_inc, a_dec, b_dec, wrap32] <;> omega

theorem Section.apply_WF (x : Section) (s : Shared) : (x.apply s).WF := by
  cases x <;>
    simp [Section.apply, vTask1_Incrementer.critical, vTask2_Decrementer.critical,
      a_inc, b_inc, a_dec, b_dec, Shared.WF, wrap32_inRange]

theorem Section.apply_eq_iff (x : Section) (s : Shared) (h : s.WF) :
    (x.apply s).a = (x.apply s).b ↔ s.a = s.b := by
  obtain ⟨ha, hb⟩ := h
  unfold InRange32 at ha hb
  cases x <;>
    simp [Section.apply, vTask1_Incrementer.critical, vTask2_Decrementer.critical,
      a_inc, b_inc, a_dec, b_dec, wrap32] <;> omega

theorem runSections_WF (ops : List Section) (s : Shared) (h : s.WF) :
    (runSections ops s).WF := by
  induction ops generalizing s with
  | nil => simpa [runSections_nil] using h
  | cons op ops ih => rw [runSections_cons]; exact ih _ (Section.apply_WF op s)

/-- Closed form: the counters after `ops` are the start values shifted by
(number of increments) - (number of decrements), reduced to `int32_t`. -/
theorem runSections_closed (ops : List Section) (s : Shared) (h : s.WF) :
    runSections ops s =
      { a := wrap32 (s.a + ((ops.count Section.inc : Int) - (ops.count Section.dec : Int))),
        b := wrap32 (s.b + ((ops.count Section.inc : Int) - (ops.count Section.dec : Int))) } := by
  induction ops generalizing s with
  | nil =>
    obtain ⟨a, b⟩ := s
    simp [runSections_nil, wrap32_of_inRange h.1, wrap32_of_inRange h.2]
  | cons op ops ih =>
    rw [runSections_cons, ih _ (Section.apply_WF op s)]
    cases op
    · simp only [Section.apply, vTask1_Incrementer.critical, a_inc, b_inc, wrap32_add_wrap32,
        List.count_cons_self, List.count_cons_of_ne, ne_eq, reduceCtorEq, not_false_eq_true,
        Nat.cast_add, Nat.cast_one]
      congr 2 <;> ring
    · simp only [Section.apply, vTask2_Decrementer.critical, a_dec, b_dec, wrap32_add_wrap32,
        List.count_cons_self, List.count_cons_of_ne, ne_eq, reduceCtorEq, not_false_eq_true,
        Nat.cast_add, Nat.cast_one]
      congr 2 <;> ring

theorem runSections_perm (s : Shared) {ops₁ ops₂ : List Section} (h : ops₁.Perm ops₂) :
    runSections ops₁ s = runSections ops₂ s := by
  induction h generalizing s with
  | nil => rfl
  | cons x _ ih => simp only [runSections_cons]; exact ih _
  | swap x y l => simp only [runSections_cons, Section.apply_comm x y s]
  | trans _ _ ih₁ ih₂ => exact (ih₁ s).trans (ih₂ s)

theorem Shared.init_WF : Shared.init.WF := by decide

theorem runSections_eq_iff (ops : List Section) (s : Shared) (h : s.WF) :
    (runSections ops s).a = (runSections ops s).b ↔ s.a = s.b := by
  induction ops generalizing s with
  | nil => simp [runSections_nil]
  | cons op ops ih =>
    rw [runSections_cons, ih _ (Section.apply_WF op s), Section.apply_eq_iff op s h]

theorem count_dec_replicate_inc (n : Nat) :
    (List.replicate n Section.inc).count Section.dec = 0 := by
  rw [List.count_replicate]; simp

theorem runSections_replicate_inc (n : Nat) :
    runSections (List.replicate n Section.inc) Shared.init
      = { a := wrap32 (n : Int), b := wrap32 (n : Int) } := by
  rw [runSections_closed _ _ Shared.init_WF, List.count_replicate_self,
    count_dec_replicate_inc]
  simp [Shared.init]

/-! ## The claims on the counters -/

/-- Claim C1: starting from `a = b = 0`, after every finite sequence of
completed critical sections of the incrementer and the decrementer, in any
interleaving of whole critical sections, `a == b`. -/
theorem counters_equal_after_sections (ops : List Section) :
    (runSections ops Shared.init).a = (runSections ops Shared.init).b :=
  (runSections_eq_iff ops Shared.init Shared.init_WF).2 rfl

/-- Claim C2, refuted as stated: after `2^31` completed increments and no
decrement the counters hold `-2^31`, not `N - M = 2^31`. -/
theorem conservation_fails_at_two_pow_31 :
    (List.replicate 2147483648 Section.inc).count Section.inc = 2147483648 ∧
    (List.replicate 2147483648 Section.inc).count Section.dec = 0 ∧
    runSections (List.replicate 2147483648 Section.inc) Shared.init
      = { a := -2147483648, b := -2147483648 } ∧
    (runSections (List.replicate 2147483648 Section.inc) Shared.init).a
      ≠ (2147483648 : Int) - 0 := by
  have hw : wrap32 (2147483648 : Nat) = -2147483648 := by unfold wrap32; omega
  have hr := runSections_replicate_inc 2147483648
  rw [hw] at hr
  refine ⟨List.count_replicate_self _ _, count_dec_replicate_inc _, hr, ?_⟩
  rw [hr]; show (-2147483648 : Int) ≠ 2147483648 - 0; omega

/-- Claim C2, amended: starting from `a = b = 0`, after `N` completed
increments and `M` completed decrements, in any order, `a == b ==` the value of
`N - M` reduced to the `int32_t` range; so `a == b == N - M` whenever
`-2^31 ≤ N - M ≤ 2^31 - 1`, and 3 increments and 0 decrements give
`a == b == 3`. -/
theorem conservation_in_int32 (ops : List Section) :
    runSections ops Shared.init
      = { a := wrap32 ((ops.count Section.inc : Int) - (ops.count Section.dec : Int)),
          b := wrap32 ((ops.count Section.inc : Int) - (ops.count Section.dec : Int)) } ∧
    (InRange32 ((ops.count Section.inc : Int) - (ops.count Section.dec : Int)) →
      runSections ops Shared.init
        = { a := (ops.count Section.inc : Int) - (ops.count Section.dec : Int),
            b := (ops.count Section.inc : Int) - (ops.count Section.dec : Int) }) ∧
    runSections [Section.inc, Section.inc, Section.inc] Shared.init = { a := 3, b := 3 } := by
  have hr := runSections_closed ops Shared.init Shared.init_WF
  simp only [Shared.init, zero_add] at hr
  refine ⟨hr, fun h => ?_, by decide⟩
  show runSections ops { a := 0, b := 0 } = _
  rw [hr, wrap32_of_inRange h]

/-- Claim C3: two sequences of completed critical sections that are
permutations of each other give the same `(a, b)` from the same starting
state; in particular every ordering of 5 increments and 5 decrements takes
`a = b = 0` back to `a == b == 0`. -/
theorem order_of_sections_irrelevant :
    (∀ (s : Shared) (ops₁ ops₂ : List Section), ops₁.Perm ops₂ →
      runSections ops₁ s = runSections ops₂ s) ∧
    (∀ ops : List Section,
      ops.Perm (List.replicate 5 Section.inc ++ List.replicate 5 Section.dec) →
      runSections ops Shared.init = { a := 0, b := 0 }) := by
  refine ⟨fun s _ _ h => runSections_perm s h, fun ops h => ?_⟩
  rw [runSections_perm Shared.init h]
  decide

/-- Witness for C3 at a concrete pair of orderings. -/
theorem order_of_sections_irrelevant_witness :
    runSections [Section.inc, Section.dec, Section.dec] { a := 2147483647, b := 7 }
      = runSections [Section.dec, Section.inc, Section.dec] { a := 2147483647, b := 7 } ∧
    runSections [Section.dec, Section.inc, Section.dec, Section.inc, Section.inc,
        Section.dec, Section.dec, Section.inc, Section.inc, Section.dec] Shared.init
      = { a := 0, b := 0 } :=
  ⟨order_of_sections_irrelevant.1 _ _ _ (List.Perm.swap _ _ _),
   order_of_sections_irrelevant.2 _ (by decide)⟩

/-- Claim C4: for every starting pair of `int32_t` values `(a, b)` and every
finite sequence of the symmetric updates of the two task bodies, `a` and `b`
are equal after the sequence if and only if they were equal before it. -/
theorem equal_after_iff_equal_before (s : Shared) (h : s.WF) (ops : List Section) :
    (runSections ops s).a = (runSections ops s).b ↔ s.a = s.b :=
  runSections_eq_iff ops s h

/-- Witness for C4: a start with `a ≠ b`, one counter at `INT32_MAX`. -/
theorem equal_after_iff_equal_before_witness :
    Shared.WF { a := 2147483647, b := -5 } ∧
    ((runSections [Section.inc, Section.inc, Section.dec] { a := 2147483647, b := -5 }).a
        = (runSections [Section.inc, Section.inc, Section.dec] { a := 2147483647, b := -5 }).b
      ↔ (2147483647 : Int) = -5) :=
  ⟨by decide, equal_after_iff_equal_before _ (by decide) _⟩

/-! ## Lemmas on `Delay` -/

theorem Delay.loop_from (count : Nat) (hc : count ≤ UINT_MAX) :
    ∀ (d i fuel : Nat), i + d = count → d < fuel →
      Delay.loop count fuel i = some { i := count, iterations := d, wrapped := false } := by
  unfold UINT_MAX at hc
  intro d
  induction d with
  | zero =>
    intro i fuel hi hf
    obtain ⟨f, rfl⟩ : ∃ f, fuel = f + 1 := ⟨fuel - 1, by omega⟩
    have : ¬ i < count := by omega
    simp only [Delay.loop, this, if_false]
    simp at hi
    rw [hi]
  | succ d ih =>
    intro i fuel hi hf
    obtain ⟨f, rfl⟩ : ∃ f, fuel = f + 1 := ⟨fuel - 1, by omega⟩
    have hlt : i < count := by omega
    have hmod : (i + 1) % 4294967296 = i + 1 := Nat.mod_eq_of_lt (by omega)
    have hnw : ¬ 4294967296 ≤ i + 1 := by omega
    simp only [Delay.loop, hlt, if_true, hmod]
    rw [ih (i + 1) f (by omega) (by omega)]
    simp [hnw]

theorem Delay_eq (count : Nat) (hc : count ≤ UINT_MAX) (m : Machine) :
    Delay count m = some m := by
  unfold Delay
  rw [Delay.loop_from count hc count 0 (count + 1) (by omega) (by omega)]
  rfl

/-- Claim C10: for every `unsigned int` value `count`, 0 and `UINT_MAX`
included, the loop of `Delay(count)` is left after exactly `count` iterations
(any bound above `count` on the evaluations of the loop condition is enough),
with `i == count` and no `i++` having wrapped around, and `Delay` hands back
the machine state unchanged. -/
theorem Delay_terminates_after_count (count : Nat) (hc : count ≤ UINT_MAX) :
    (∀ fuel, count < fuel →
      Delay.loop count fuel 0 = some { i := count, iterations := count, wrapped := false }) ∧
    (∀ m : Machine, Delay count m = some m) :=
  ⟨fun fuel hf => Delay.loop_from count hc count 0 fuel (by omega) hf,
   fun m => Delay_eq count hc m⟩

/-- Witness for C10 at the largest `unsigned int`. -/
theorem Delay_terminates_after_count_witness :
    (4294967295 : Nat) ≤ UINT_MAX ∧
    Delay.loop 4294967295 4294967296 0
      = some { i := 4294967295, iterations := 4294967295, wrapped := false } ∧
    Delay.loop 0 1 0 = some { i := 0, iterations := 0, wrapped := false } :=
  ⟨by decide, (Delay_terminates_after_count 4294967295 (by decide)).1 _ (by omega),
   by decide⟩

/-! ## Lemmas on the program -/

theorem Delay_100 (m : Machine) : Delay 100 m = some m := Delay_eq _ (by decide) m

theorem Delay_1000 (m : Machine) : Delay 1000 m = some m := Delay_eq _ (by decide) m

theorem Delay_10000 (m : Machine) : Delay 10000 m = some m := Delay_eq _ (by decide) m

theorem Delay_BLINK (m : Machine) : Delay BLINK_DELAY_COUNT m = some m :=
  Delay_eq _ (by decide) m

theorem run_zero (osc : Nat → Bool) (c : Cfg) : run osc 0 c = some c := rfl

theorem run_succ (osc : Nat → Bool) (n : Nat) (c : Cfg) :
    run osc (n + 1) c = (step osc c).bind (run osc n) := rfl

theorem run_add (osc : Nat → Bool) (a b : Nat) (c : Cfg) :
    run osc (a + b) c = (run osc a c).bind (run osc b) := by
  induction a generalizing c with
  | zero => simp [run_zero]
  | succ a ih =>
    rw [Nat.add_right_comm, run_succ, run_succ]
    cases h : step osc c with
    | none => rfl
    | some c' => simp [ih]

theorem sh_writeReg (r : Reg) (v : Nat) (m : Machine) : (writeReg r v m).sh = m.sh := rfl

theorem sh_System_Init (m : Machine) : (System_Init m).sh = m.sh := rfl

theorem sh_LED_Init (m : Machine) : (LED_Init m).sh = m.sh := rfl

theorem sh_LED_Off (m : Machine) : (LED_Off m).sh = m.sh := rfl

theorem sh_LED_Toggle (m : Machine) : (LED_Toggle m).sh = m.sh := rfl

/-- From a statement of `led_main` (or of `Clock_Init_Comprehensive`) there is
a next configuration, it is again at such a statement, and the counters are
untouched. -/
theorem step_inLedMain (osc : Nat → Bool) (c : Cfg) (h : c.loc.inLedMain = true) :
    ∃ c', step osc c = some c' ∧ c'.loc.inLedMain = true ∧ c'.m.sh = c.m.sh := by
  obtain ⟨loc, m⟩ := c
  cases loc <;> simp [Loc.inLedMain] at h <;>
    simp [step, Loc.inLedMain, Delay_100, Delay_1000, Delay_10000, Delay_BLINK,
      sh_writeReg, sh_System_Init, sh_LED_Init, sh_LED_Off, sh_LED_Toggle]
  split <;> simp [Loc.inLedMain]

theorem run_inLedMain (osc : Nat → Bool) (n : Nat) (c : Cfg) (h : c.loc.inLedMain = true) :
    ∃ c', run osc n c = some c' ∧ c'.loc.inLedMain = true ∧ c'.m.sh = c.m.sh := by
  induction n generalizing c with
  | zero => exact ⟨c, rfl, h, rfl⟩
  | succ n ih =>
    obtain ⟨c₁, h₁, hl₁, hs₁⟩ := step_inLedMain osc c h
    obtain ⟨c₂, h₂, hl₂, hs₂⟩ := ih c₁ hl₁
    exact ⟨c₂, by rw [run_succ, h₁]; exact h₂, hl₂, hs₂.trans hs₁⟩

theorem step_boot (osc : Nat → Bool) (pin0 : Bool) :
    step osc (boot pin0) = some { boot pin0 with loc := .L228 } := rfl

theorem run_boot_succ (osc : Nat → Bool) (pin0 : Bool) (n : Nat) :
    ∃ c, run osc (n + 1) (boot pin0) = some c ∧ c.loc.inLedMain = true ∧
      c.m.sh = Shared.init := by
  obtain ⟨c, hc, hl, hs⟩ := run_inLedMain osc n { boot pin0 with loc := .L228 } rfl
  exact ⟨c, by rw [run_succ, step_boot]; exact hc, hl, hs⟩

theorem pin_LED_Init (m : Machine) : (LED_Init m).P16_11 = true := rfl

theorem pin_LED_Off (m : Machine) : (LED_Off m).P16_11 = true := rfl

theorem pin_LED_Toggle (m : Machine) : (LED_Toggle m).P16_11 = !m.P16_11 := rfl

theorem pin_LED_Toggle_iterate (k : Nat) (m : Machine) :
    (LED_Toggle^[k] m).P16_11 = if k % 2 = 0 then m.P16_11 else !m.P16_11 := by
  induction k with
  | zero => simp
  | succ k ih =>
    rw [Function.iterate_succ_apply', pin_LED_Toggle, ih]
    rcases Nat.mod_two_eq_zero_or_one k with h | h
    · have : (k + 1) % 2 = 1 := by omega
      simp [h, this]
    · have : (k + 1) % 2 = 0 := by omega
      simp [h, this]

/-- Lines 233-240: from `LED_Init();` to the head of the blink loop. -/
theorem run_init_to_loop (osc : Nat → Bool) (m : Machine) :
    run osc 5 { loc := .L233, m := m } = some { loc := .L242, m := LED_Off (LED_Init m) } := by
  simp [run, step, Delay_10000, Delay_BLINK]

/-- Lines 242-248: one iteration of the blink loop. -/
theorem run_loop_iteration (osc : Nat → Bool) (m : Machine) :
    run osc 3 { loc := .L242, m := m } = some { loc := .L242, m := LED_Toggle m } := by
  simp [run, step, Delay_BLINK]

theorem run_loop_iterations (osc : Nat → Bool) (k : Nat) (m : Machine) :
    run osc (3 * k) { loc := .L242, m := m } = some { loc := .L242, m := LED_Toggle^[k] m } := by
  induction k generalizing m with
  | zero => rfl
  | succ k ih =>
    rw [show 3 * (k + 1) = 3 + 3 * k by ring, run_add, run_loop_iteration]
    simp only [Option.some_bind, ih, Function.iterate_succ_apply]

/-- Lines 260, 228, 123-145, 229, 231 with an oscillator that is stable at the
first read: from program start to `LED_Init();`. -/
theorem run_boot_to_init (pin0 : Bool) :
    ∃ m, run oscReady 13 (boot pin0) = some { loc := .L233, m := m } := by
  simp only [run, step, boot, oscReady, Delay_1000, Delay_10000, Option.some_bind,
    Option.map_some', Bool.true_eq_false, if_false]
  exact ⟨_, rfl⟩

/-- Lines 126-129: while the oscillator reports itself not stable, each two
transitions are one more read of the flag and one `Delay(100)`. -/
theorem run_poll_wait (osc : Nat → Bool) :
    ∀ (i : Nat) (m : Machine), (∀ k, k < i → osc (m.polls + k) = false) →
      run osc (2 * i) { loc := .L126, m := m }
        = some { loc := .L126, m := { m with polls := m.polls + i } } := by
  intro i
  induction i with
  | zero => intro m _; rfl
  | succ i ih =>
    intro m h
    have h0 : osc m.polls = false := by simpa using h 0 (Nat.succ_pos i)
    have h2 : run osc 2 { loc := .L126, m := m }
        = some { loc := .L126, m := { m with polls := m.polls + 1 } } := by
      simp only [run, step, h0, if_true, Option.some_bind, Delay_100, Option.map_some']
    have hrest : ∀ k, k < i → osc (({ m with polls := m.polls + 1 } : Machine).polls + k)
        = false := by
      intro k hk
      have := h (k + 1) (by omega)
      simpa [Nat.add_assoc, Nat.add_comm 1 k] using this
    rw [show 2 * (i + 1) = 2 + 2 * i by ring, run_add, h2, Option.some_bind, ih _ hrest]
    simp only [Nat.add_assoc, Nat.add_comm 1 i]

/-- Lines 126-145, 229, 231: once the oscillator reports itself stable the
polling loop is left and ten transitions lead to `LED_Init();`. -/
theorem run_poll_exit (osc : Nat → Bool) (m : Machine) (h : osc m.polls = true) :
    ∃ m', run osc 10 { loc := .L126, m := m } = some { loc := .L233, m := m' } := by
  simp only [run, step, h, Bool.true_eq_false, if_false, Option.some_bind, Delay_1000,
    Delay_10000, Option.map_some']
  exact ⟨_, rfl⟩

theorem run_boot_to_poll (osc : Nat → Bool) (pin0 : Bool) :
    ∃ m, m.polls = 0 ∧ run osc 3 (boot pin0) = some { loc := .L126, m := m } :=
  ⟨_, rfl, rfl⟩

/-- From program start to the head of the blink loop, when the oscillator
first reports itself stable at its read number `j`. -/
theorem run_boot_to_loop (osc : Nat → Bool) (pin0 : Bool) (j : Nat)
    (hwait : ∀ i, i < j → osc i = false) (hready : osc j = true) :
    ∃ m, run osc (2 * j + 18) (boot pin0) = some { loc := .L242, m := m } := by
  obtain ⟨m₀, hp, h₀⟩ := run_boot_to_poll osc pin0
  have h₁ := run_poll_wait osc j m₀ (by intro k hk; rw [hp, Nat.zero_add]; exact hwait k hk)
  obtain ⟨m₂, h₂⟩ := run_poll_exit osc { m₀ with polls := m₀.polls + j }
    (by show osc (m₀.polls + j) = true; rw [hp, Nat.zero_add]; exact hready)
  refine ⟨LED_Off (LED_Init m₂), ?_⟩
  rw [show 2 * j + 18 = 3 + (2 * j + (10 + 5)) by ring, run_add, h₀, Option.some_bind,
    run_add, h₁, Option.some_bind, run_add, h₂, Option.some_bind, run_init_to_loop]

/-- A transition from inside the blink loop leads back into the blink loop. -/
theorem step_inBlinkLoop (osc : Nat → Bool) (c : Cfg) (h : c.loc.inBlinkLoop = true) :
    ∃ c', step osc c = some c' ∧ c'.loc.inBlinkLoop = true := by
  obtain ⟨loc, m⟩ := c
  cases loc <;> simp [Loc.inBlinkLoop] at h <;>
    simp [step, Loc.inBlinkLoop, Delay_BLINK]

theorem run_inBlinkLoop (osc : Nat → Bool) (n : Nat) (c : Cfg)
    (h : c.loc.inBlinkLoop = true) :
    ∃ c', run osc n c = some c' ∧ c'.loc.inBlinkLoop = true := by
  induction n generalizing c with
  | zero => exact ⟨c, rfl, h⟩
  | succ n ih =>
    obtain ⟨c₁, h₁, hl₁⟩ := step_inBlinkLoop osc c h
    obtain ⟨c₂, h₂, hl₂⟩ := ih c₁ hl₁
    exact ⟨c₂, by rw [run_succ, h₁]; exact h₂, hl₂⟩

/-- With an oscillator that never reports itself stable, a transition from
inside the polling loop leads back into the polling loop. -/
theorem step_inPollLoop (osc : Nat → Bool) (hosc : ∀ k, osc k = false) (c : Cfg)
    (h : c.loc.inPollLoop = true) :
    ∃ c', step osc c = some c' ∧ c'.loc.inPollLoop = true := by
  obtain ⟨loc, m⟩ := c
  cases loc <;> simp [Loc.inPollLoop] at h <;>
    simp [step, Loc.inPollLoop, Delay_100, hosc]

theorem run_inPollLoop (osc : Nat → Bool) (hosc : ∀ k, osc k = false) (n : Nat) (c : Cfg)
    (h : c.loc.inPollLoop = true) :
    ∃ c', run osc n c = some c' ∧ c'.loc.inPollLoop = true := by
  induction n generalizing c with
  | zero => exact ⟨c, rfl, h⟩
  | succ n ih =>
    obtain ⟨c₁, h₁, hl₁⟩ := step_inPollLoop osc hosc c h
    obtain ⟨c₂, h₂, hl₂⟩ := ih c₁ hl₁
    exact ⟨c₂, by rw [run_succ, h₁]; exact h₂, hl₂⟩

/-! ## The claims on the program -/

/-- Claim C6, refuted as stated: with an oscillator that is stable at once,
no number of transitions from program start brings `main` to its end with
return value 0. -/
theorem main_does_not_return :
    ¬ ∃ n, (run oscReady n (boot true)).map (fun c => c.loc) = some (Loc.exited 0) := by
  rintro ⟨n, h⟩
  cases n with
  | zero => simp [run_zero, boot] at h
  | succ n =>
    obtain ⟨c, hc, hl, -⟩ := run_boot_succ oscReady true n
    rw [hc] at h
    simp only [Option.map_some', Option.some.injEq] at h
    rw [h] at hl
    simp [Loc.inLedMain] at hl

/-- Claim C6, amended: the first transition of `main` is the call of
`led_main`, and `led_main` never returns. Whatever the oscillator reports and
however many transitions are made, there is a next configuration and control
is at a statement of `led_main` (or of `Clock_Init_Comprehensive`, which it
calls) other than its `return 0;`, so the `return 0;` of `main` is never
reached. More precisely: if the oscillator never reports itself stable,
control is in the polling loop of lines 126-129 from the third transition on,
for ever; if it first reports itself stable at its read number `j`, control
is at the head of the `while(1)` blink loop after `2 * j + 18` transitions and
stays in that loop (lines 242-248) for ever after. -/
theorem main_stays_in_led_main (osc : Nat → Bool) (pin0 : Bool) (n : Nat) :
    run osc 1 (boot pin0) = some { boot pin0 with loc := .L228 } ∧
    (∃ c, run osc (n + 1) (boot pin0) = some c ∧ c.loc.inLedMain = true ∧
      c.loc ≠ .L250 ∧ c.loc ≠ .L287 ∧ ∀ code, c.loc ≠ .exited code) ∧
    ((∀ k, osc k = false) →
      ∃ c, run osc (3 + n) (boot pin0) = some c ∧ c.loc.inPollLoop = true) ∧
    (∀ j, (∀ i, i < j → osc i = false) → osc j = true →
      (∃ c, run osc (2 * j + 18) (boot pin0) = some c ∧ c.loc = .L242) ∧
      (∃ c, run osc (2 * j + 18 + n) (boot pin0) = some c ∧ c.loc.inBlinkLoop = true)) := by
  refine ⟨rfl, ?_, ?_, ?_⟩
  · obtain ⟨c, hc, hl, -⟩ := run_boot_succ osc pin0 n
    refine ⟨c, hc, hl, ?_, ?_, ?_⟩
    · intro h; rw [h] at hl; simp [Loc.inLedMain] at hl
    · intro h; rw [h] at hl; simp [Loc.inLedMain] at hl
    · intro code h; rw [h] at hl; simp [Loc.inLedMain] at hl
  · intro hosc
    obtain ⟨m₀, -, h₀⟩ := run_boot_to_poll osc pin0
    obtain ⟨c, hc, hl⟩ := run_inPollLoop osc hosc n { loc := .L126, m := m₀ } rfl
    exact ⟨c, by rw [run_add, h₀, Option.some_bind]; exact hc, hl⟩
  · intro j hwait hready
    obtain ⟨m, hm⟩ := run_boot_to_loop osc pin0 j hwait hready
    refine ⟨⟨_, hm, rfl⟩, ?_⟩
    obtain ⟨c, hc, hl⟩ := run_inBlinkLoop osc n { loc := .L242, m := m } rfl
    exact ⟨c, by rw [run_add, hm, Option.some_bind]; exact hc, hl⟩

/-- Claim C7: in every configuration reachable from program start, whatever
the oscillator reports, control is not in a task body and the shared counters
still hold their initial values `a == 0` and `b == 0`. -/
theorem counters_untouched_by_main (osc : Nat → Bool) (pin0 : Bool) (n : Nat) :
    ∃ c, run osc n (boot pin0) = some c ∧ c.loc.inTask = false ∧
      c.m.sh.a = 0 ∧ c.m.sh.b = 0 := by
  cases n with
  | zero => exact ⟨boot pin0, rfl, rfl, rfl, rfl⟩
  | succ n =>
    obtain ⟨c, hc, hl, hs⟩ := run_boot_succ osc pin0 n
    refine ⟨c, hc, ?_, by rw [hs]; rfl, by rw [hs]; rfl⟩
    cases hloc : c.loc <;> simp [hloc, Loc.inLedMain, Loc.inTask] at hl ⊢

/-- Claim C9: with the pin modelled as the comments describe the registers,
`LED_Init` leaves the pin HIGH and so does `LED_Off`, each from any state, and
`LED_On` leaves it LOW; so the pin is HIGH when the blink loop is entered; one
loop iteration is exactly one `LED_Toggle`, which inverts the pin; after `k`
iterations the pin is HIGH if and only if `k` is even; and `LED_Toggle`
applied twice restores the pin. -/
theorem blink_loop_pin (osc : Nat → Bool) (m : Machine) (k : Nat) :
    ((LED_Init m).P16_11 = true ∧ (LED_Off m).P16_11 = true ∧ (LED_On m).P16_11 = false) ∧
    (run osc 5 { loc := .L233, m := m } = some { loc := .L242, m := LED_Off (LED_Init m) } ∧
      (LED_Off (LED_Init m)).P16_11 = true) ∧
    (run osc 3 { loc := .L242, m := m } = some { loc := .L242, m := LED_Toggle m } ∧
      (LED_Toggle m).P16_11 = !m.P16_11) ∧
    (∃ c, run osc (5 + 3 * k) { loc := .L233, m := m } = some c ∧ c.loc = .L242 ∧
      (c.m.P16_11 = true ↔ k % 2 = 0)) ∧
    (∀ pin0, ∃ c, run oscReady (18 + 3 * k) (boot pin0) = some c ∧ c.loc = .L242 ∧
      (c.m.P16_11 = true ↔ k % 2 = 0)) ∧
    (LED_Toggle (LED_Toggle m)).P16_11 = m.P16_11 := by
  have key : ∀ m', ∃ c, run osc (5 + 3 * k) { loc := .L233, m := m' } = some c ∧
      c.loc = .L242 ∧ (c.m.P16_11 = true ↔ k % 2 = 0) := by
    intro m'
    refine ⟨{ loc := .L242, m := LED_Toggle^[k] (LED_Off (LED_Init m')) }, ?_, rfl, ?_⟩
    · rw [run_add, run_init_to_loop, Option.some_bind, run_loop_iterations]
    · show (LED_Toggle^[k] (LED_Off (LED_Init m'))).P16_11 = true ↔ k % 2 = 0
      rw [pin_LED_Toggle_iterate, pin_LED_Off]
      by_cases h : k % 2 = 0 <;> simp [h]
  refine ⟨⟨pin_LED_Init m, pin_LED_Off m, rfl⟩, ⟨run_init_to_loop osc m, rfl⟩,
    ⟨run_loop_iteration osc m, rfl⟩, key m, ?_, ?_⟩
  · intro pin0
    obtain ⟨m₁, h₁⟩ := run_boot_to_init pin0
    refine ⟨{ loc := .L242, m := LED_Toggle^[k] (LED_Off (LED_Init m₁)) }, ?_, rfl, ?_⟩
    · rw [show 18 + 3 * k = 13 + (5 + 3 * k) by ring, run_add, h₁, Option.some_bind,
        run_add, run_init_to_loop, Option.some_bind, run_loop_iterations]
    · show (LED_Toggle^[k] (LED_Off (LED_Init m₁))).P16_11 = true ↔ k % 2 = 0
      rw [pin_LED_Toggle_iterate, pin_LED_Off]
      by_cases h : k % 2 = 0 <;> simp [h]
  · rw [pin_LED_Toggle, pin_LED_Toggle, Bool.not_not]

/-! ## Lemmas on the task bodies -/

theorem TaskState.start_inv : TaskState.start.Inv := by
  simp [TaskState.Inv, TaskState.start, TaskLoc.inCritical]

theorem taskStep_inv (k : TaskKind) (t : TaskState) (sh : Shared) (h : t.Inv) :
    (taskStep k t sh).1.Inv := by
  obtain ⟨loc, nesting, waiting, ca, cb⟩ := t
  unfold taskStep
  cases waiting with
  | some w => simpa using h
  | none =>
    cases loc <;> simp_all [TaskState.Inv, TaskLoc.inCritical, taskENTER_CRITICAL, taskEXIT_CRITICAL,
      vTaskDelay]

theorem taskWake_inv (t : TaskState) (h : t.Inv) : (taskWake t).Inv := by
  obtain ⟨loc, nesting, waiting, ca, cb⟩ := t
  unfold taskWake
  cases waiting with
  | none => simpa using h
  | some w =>
    obtain ⟨h₁, h₂, -⟩ := h
    have hl : loc = .delay := h₂ rfl
    subst hl
    simp_all [TaskState.Inv, TaskLoc.inCritical]

theorem taskApply_inv (k : TaskKind) (c : TaskState × Shared) (ev : TaskEvent)
    (h : c.1.Inv) : (taskApply k c ev).1.Inv := by
  cases ev
  · exact taskStep_inv k c.1 c.2 h
  · exact taskWake_inv c.1 h

theorem taskRun_inv (k : TaskKind) (evs : List TaskEvent) (c : TaskState × Shared)
    (h : c.1.Inv) : (taskRun k evs c).1.Inv := by
  induction evs generalizing c with
  | nil => exact h
  | cons ev evs ih => exact ih _ (taskApply_inv k c ev h)

/-- A task that satisfies the invariant always has a transition that changes
its state: the expiry of its delay if it is suspended, its next statement
otherwise. -/
theorem taskApply_progress (k : TaskKind) (c : TaskState × Shared) (h : c.1.Inv) :
    ∃ ev, taskApply k c ev ≠ c := by
  obtain ⟨⟨loc, nesting, waiting, ca, cb⟩, sh⟩ := c
  cases waiting with
  | some w =>
    refine ⟨.wake, ?_⟩
    simp [taskApply, taskWake]
  | none =>
    refine ⟨.exec, ?_⟩
    obtain ⟨-, -, h₃⟩ := h
    cases loc <;>
      simp_all [taskApply, taskStep, taskENTER_CRITICAL, taskEXIT_CRITICAL, vTaskDelay]

/-! ## Lemmas on the two-task system -/

theorem Sys.init_inv : Sys.init.Inv := by
  refine ⟨TaskState.start_inv, TaskState.start_inv, ?_, ?_⟩ <;>
    simp [Sys.init, TaskState.start, TaskLoc.inCritical, Shared.init]

theorem sysStep_inv (s : Sys) (ev : SchedEvent) (h : s.Inv) : (sysStep s ev).Inv := by
  obtain ⟨⟨a, b⟩, ⟨l₁, n₁, w₁, ca₁, cb₁⟩, ⟨l₂, n₂, w₂, ca₂, cb₂⟩⟩ := s
  rcases ev with (_ | _) | (_ | _)
  · -- task 1 executes a statement
    by_cases hc : Sys.canRun ⟨⟨a, b⟩, ⟨l₁, n₁, w₁, ca₁, cb₁⟩, ⟨l₂, n₂, w₂, ca₂, cb₂⟩⟩ .T1 = true
    · simp only [sysStep, hc, if_true]
      simp only [Sys.canRun, Sys.task, TaskId.other, Bool.and_eq_true, Option.isNone_iff_eq_none,
        beq_iff_eq] at hc
      obtain ⟨hw, hn⟩ := hc
      subst hw hn
      cases l₁ <;> cases l₂ <;>
        simp_all [Sys.Inv, TaskState.Inv, TaskLoc.inCritical, Sys.setTask, Sys.task, taskStep,
          TaskId.kind, a_inc, b_inc, taskENTER_CRITICAL, taskEXIT_CRITICAL, vTaskDelay]
    · simp only [sysStep, hc]; exact h
  · -- task 2 executes a statement
    by_cases hc : Sys.canRun ⟨⟨a, b⟩, ⟨l₁, n₁, w₁, ca₁, cb₁⟩, ⟨l₂, n₂, w₂, ca₂, cb₂⟩⟩ .T2 = true
    · simp only [sysStep, hc, if_true]
      simp only [Sys.canRun, Sys.task, TaskId.other, Bool.and_eq_true, Option.isNone_iff_eq_none,
        beq_iff_eq] at hc
      obtain ⟨hw, hn⟩ := hc
      subst hw hn
      cases l₁ <;> cases l₂ <;>
        simp_all [Sys.Inv, TaskState.Inv, TaskLoc.inCritical, Sys.setTask, Sys.task, taskStep,
          TaskId.kind, a_dec, b_dec, taskENTER_CRITICAL, taskEXIT_CRITICAL, vTaskDelay]
    · simp only [sysStep, hc]; exact h
  · -- the delay of task 1 expires
    obtain ⟨h₁, h₂, h₃, h₄⟩ := h
    have h₁' := taskWake_inv _ h₁
    cases w₁ with
    | none => exact ⟨h₁, h₂, h₃, h₄⟩
    | some w =>
      have hl : l₁ = .delay := h₁.2.1 rfl
      subst hl
      refine ⟨h₁', h₂, ?_, ?_⟩ <;>
        simp_all [sysStep, Sys.setTask, Sys.task, taskWake, TaskLoc.inCritical]
  · -- the delay of task 2 expires
    obtain ⟨h₁, h₂, h₃, h₄⟩ := h
    have h₂' := taskWake_inv _ h₂
    cases w₂ with
    | none => exact ⟨h₁, h₂, h₃, h₄⟩
    | some w =>
      have hl : l₂ = .delay := h₂.2.1 rfl
      subst hl
      refine ⟨h₁, h₂', ?_, ?_⟩ <;>
        simp_all [sysStep, Sys.setTask, Sys.task, taskWake, TaskLoc.inCritical]

theorem sysRun_inv (evs : List SchedEvent) (s : Sys) (h : s.Inv) : (sysRun evs s).Inv := by
  induction evs generalizing s with
  | nil => exact h
  | cons ev evs ih => exact ih _ (sysStep_inv s ev h)

/-- One full loop iteration of the incrementer on its own: seven statements
and the expiry of the delay bring it back to the loop head with both counters
incremented and read back. -/
theorem task_iteration_example :
    taskRun .incrementer [.exec, .exec, .exec, .exec, .exec, .exec, .exec, .wake]
        (TaskState.start, Shared.init)
      = ({ loc := .enter, nesting := 0, waiting := none, current_a := some 1,
           current_b := some 1 }, { a := 1, b := 1 }) := by
  decide

/-- After its seventh statement the incrementer is suspended in `vTaskDelay`
with a period of 10 ms, and executes nothing until the delay expires. -/
theorem task_suspended_example :
    (taskRun .incrementer [.exec, .exec, .exec, .exec, .exec, .exec, .exec]
        (TaskState.start, Shared.init)).1.waiting = some 10 ∧
    taskRun .incrementer [.exec, .exec, .exec, .exec, .exec, .exec, .exec, .exec]
        (TaskState.start, Shared.init)
      = taskRun .incrementer [.exec, .exec, .exec, .exec, .exec, .exec, .exec]
        (TaskState.start, Shared.init) := by
  decide

/-- The task bodies do write the counters when control is in them: three
transitions of the program from the start of the decrementer body leave
`a == b == -1`. -/
theorem task_body_writes_counters (osc : Nat → Bool) (pin0 : Bool) :
    (run osc 3 { boot pin0 with loc := .task .decrementer TaskState.start }).map
        (fun c => c.m.sh) = some { a := -1, b := -1 } := by
  cases pin0 <;> rfl

/-! ## The claims on the tasks -/

/-- Claim C8: in every state a task body reaches from its start, by any
sequence of executed statements and delay expiries: the task is suspended only
at its `vTaskDelay` call; at that call, and at the head of every loop
iteration, no critical section is open (entries and exits are balanced, the
nesting count being 1 strictly inside the critical section and 0 elsewhere);
so a suspended task holds no critical section; control never reaches the end of
the function; and there is always a next transition that changes the state. -/
theorem task_suspends_outside_critical (k : TaskKind) (evs : List TaskEvent) (sh : Shared) :
    ((taskRun k evs (TaskState.start, sh)).1.waiting.isSome = true →
      (taskRun k evs (TaskState.start, sh)).1.loc = .delay) ∧
    ((taskRun k evs (TaskState.start, sh)).1.loc = .delay →
      (taskRun k evs (TaskState.start, sh)).1.nesting = 0) ∧
    ((taskRun k evs (TaskState.start, sh)).1.loc = .enter →
      (taskRun k evs (TaskState.start, sh)).1.nesting = 0) ∧
    (taskRun k evs (TaskState.start, sh)).1.nesting
      = (if (taskRun k evs (TaskState.start, sh)).1.loc.inCritical then 1 else 0) ∧
    ((taskRun k evs (TaskState.start, sh)).1.waiting.isSome = true →
      (taskRun k evs (TaskState.start, sh)).1.nesting = 0) ∧
    (taskRun k evs (TaskState.start, sh)).1.loc ≠ .ret ∧
    (∃ ev, taskApply k (taskRun k evs (TaskState.start, sh)) ev
      ≠ taskRun k evs (TaskState.start, sh)) := by
  have h := taskRun_inv k evs (TaskState.start, sh) TaskState.start_inv
  have hp := taskApply_progress k _ h
  obtain ⟨h₁, h₂, h₃⟩ := h
  refine ⟨h₂, ?_, ?_, h₁, ?_, h₃, hp⟩
  · intro hl; rw [h₁, hl]; rfl
  · intro hl; rw [h₁, hl]; rfl
  · intro hw; rw [h₁, h₂ hw]; rfl

/-- Claim C5: in every state the two tasks reach from the start of the
scheduler, under any schedule: the two critical sections are never open
together; a task that can be given the processor finds the other task outside
its critical section; whenever no task is between its two counter updates
`a == b`; so every task that can be given the processor, unless it is itself
between its own two updates, sees `a == b`, and so does every observer that
looks only while no critical section is open. -/
theorem critical_sections_atomic (evs : List SchedEvent) :
    ¬ ((sysRun evs Sys.init).t1.loc.inCritical = true ∧
        (sysRun evs Sys.init).t2.loc.inCritical = true) ∧
    (∀ id, (sysRun evs Sys.init).canRun id = true →
      ((sysRun evs Sys.init).task id.other).loc.inCritical = false) ∧
    ((sysRun evs Sys.init).partialUpdate = false →
      (sysRun evs Sys.init).sh.a = (sysRun evs Sys.init).sh.b) ∧
    (∀ id, (sysRun evs Sys.init).canRun id = true →
      ((sysRun evs Sys.init).task id).loc ≠ .updB →
      (sysRun evs Sys.init).sh.a = (sysRun evs Sys.init).sh.b) ∧
    ((sysRun evs Sys.init).t1.nesting = 0 → (sysRun evs Sys.init).t2.nesting = 0 →
      (sysRun evs Sys.init).sh.a = (sysRun evs Sys.init).sh.b) := by
  have h := sysRun_inv evs Sys.init Sys.init_inv
  generalize sysRun evs Sys.init = s at h
  obtain ⟨h₁, h₂, h₃, h₄⟩ := h
  have hother : ∀ id, s.canRun id = true → (s.task id.other).loc.inCritical = false := by
    intro id hc
    simp only [Sys.canRun, Bool.and_eq_true, beq_iff_eq] at hc
    have hn := hc.2
    cases id
    · have := h₂.1
      simp only [Sys.task, TaskId.other] at hn ⊢
      rw [hn] at this
      cases hcon : s.t2.loc.inCritical
      · rfl
      · simp [hcon] at this
    · have := h₁.1
      simp only [Sys.task, TaskId.other] at hn ⊢
      rw [hn] at this
      cases hcon : s.t1.loc.inCritical
      · rfl
      · simp [hcon] at this
  have hquiet : s.partialUpdate = false → s.sh.a = s.sh.b := by
    intro hp
    simp only [Sys.partialUpdate, Bool.or_eq_false_iff, decide_eq_false_iff_not] at hp
    simpa [hp.1, hp.2] using h₄
  refine ⟨h₃, hother, hquiet, ?_, ?_⟩
  · intro id hc hl
    apply hquiet
    have ho := hother id hc
    cases id
    · simp only [Sys.task, TaskId.other] at hl ho
      have : s.t2.loc ≠ .updB := by
        intro h; rw [h] at ho; simp [TaskLoc.inCritical] at ho
      simp [Sys.partialUpdate, hl, this]
    · simp only [Sys.task, TaskId.other] at hl ho
      have : s.t1.loc ≠ .updB := by
        intro h; rw [h] at ho; simp [TaskLoc.inCritical] at ho
      simp [Sys.partialUpdate, hl, this]
  · intro hn₁ hn₂
    apply hquiet
    have e₁ := h₁.1
    have e₂ := h₂.1
    rw [hn₁] at e₁
    rw [hn₂] at e₂
    have l₁ : s.t1.loc ≠ .updB := by
      intro h; rw [h] at e₁; simp [TaskLoc.inCritical] at e₁
    have l₂ : s.t2.loc ≠ .updB := by
      intro h; rw [h] at e₂; simp [TaskLoc.inCritical] at e₂
    simp [Sys.partialUpdate, l₁, l₂]

/-- A half-done update is reachable and is hidden from the other task: after
task 1 has entered its critical section and executed `a++`, the counters are
`(1, 0)`, task 1 can go on and task 2 cannot be given the processor. -/
theorem partial_update_hidden :
    (sysRun [.run .T1, .run .T1] Sys.init).sh = { a := 1, b := 0 } ∧
    (sysRun [.run .T1, .run .T1] Sys.init).partialUpdate = true ∧
    (sysRun [.run .T1, .run .T1] Sys.init).canRun .T1 = true ∧
    (sysRun [.run .T1, .run .T1] Sys.init).canRun .T2 = false := by
  decide

end FreeRT
